import Mathlib

/-!
Shallow embedding of the filesystem abstraction layer declared in
`pagespeed/kernel/base/file_system.h`, together with proofs of the
contract properties stated in its specification.

Conventions of the embedding:
- C++ int64 values are modelled as `Int`.
- The diagnostics sink (MessageHandler) is elided: no claim here concerns it.
- Stateful backend operations are modelled as explicit state passing.
- Method bodies that live in the implementation file rather than the header
  (WriteFileAtomic, GetDirInfo, ReadFile, the lock primitives) are modelled
  from the specification text; each such definition carries a doc comment
  saying so.
-/

namespace PagespeedFS

/-! ## BoolOrError: three-way return type, from the header -/

/-- The private enum of `BoolOrError` in the header. -/
inductive Choice where
  | kIsFalse : Choice
  | kIsTrue : Choice
  | kIsError : Choice
deriving DecidableEq, BEq, Repr

/-- Three-way return type for distinguishing errors from a boolean answer;
a wrapper over the `Choice` enum, as in the header. -/
structure BoolOrError where
  choice_ : Choice
deriving DecidableEq, Repr

/-- The default constructor `BoolOrError()`: leaves the value in the error
state. -/
def BoolOrError.default : BoolOrError := ⟨Choice.kIsError⟩

/-- The constructor `BoolOrError(bool t_or_f)`: maps the boolean to
`kIsTrue` or `kIsFalse`. -/
def BoolOrError.ofBool (t_or_f : Bool) : BoolOrError :=
  ⟨if t_or_f then Choice.kIsTrue else Choice.kIsFalse⟩

/-- Predicate `is_false()` from the header. -/
def BoolOrError.is_false (b : BoolOrError) : Bool := b.choice_ == Choice.kIsFalse

/-- Predicate `is_true()` from the header. -/
def BoolOrError.is_true (b : BoolOrError) : Bool := b.choice_ == Choice.kIsTrue

/-- Predicate `is_error()` from the header. -/
def BoolOrError.is_error (b : BoolOrError) : Bool := b.choice_ == Choice.kIsError

/-- Mutator `set_error()` from the header, modelled functionally. -/
def BoolOrError.set_error (_ : BoolOrError) : BoolOrError := ⟨Choice.kIsError⟩

/-- Mutator `set(bool t_or_f)` from the header, modelled functionally. -/
def BoolOrError.set (_ : BoolOrError) (t_or_f : Bool) : BoolOrError :=
  ⟨if t_or_f then Choice.kIsTrue else Choice.kIsFalse⟩

end PagespeedFS

namespace PagespeedFS

/-! ## Default lock implementations, inline in the header -/

/-- The `Timer` collaborator: the timeout lock variant consumes a time
source. The default implementation never consults it. -/
structure Timer where
  nowMs : Int

/-- The backend primitive `TryLock`, pure virtual in the header: an abstract
function from a lock name to a three-way result.  Used to state what the
non-overridden `TryLockWithTimeout` does. -/
structure LockBackend where
  TryLock : String → BoolOrError

/-- The inline default body of `FileSystem::TryLockWithTimeout` from the
header: it returns `TryLock(lock_name, handler)`, ignoring `timeout_millis`
and `timer`. -/
def TryLockWithTimeoutDefault (b : LockBackend) (lock_name : String)
    (_timeout_millis : Int) (_timer : Timer) : BoolOrError :=
  b.TryLock lock_name

/-- State observed by the lock protocol: which names are currently held,
and the time (ms) each was last claimed or bumped. -/
abbrev LockState := String → Option Int

/-- The inline default body of `FileSystem::BumpLockTimeout` from the
header: it does nothing and returns `true`.  Modelled as a state
transformer to make the frame property statable. -/
def BumpLockTimeoutDefault (_lock_name : String) (s : LockState) :
    Bool × LockState :=
  (true, s)

end PagespeedFS

namespace PagespeedFS.Locks

/-! ## The lock protocol of a conforming backend -/

/-- Modelled from the spec: `FileSystem::TryLock` is pure virtual and its
concrete bodies are not under src/.  Per the header comment and the spec,
it atomically claims the named resource: `True` if claimed, `False` if
someone else currently holds it.  The claim records the current time so the
staleness window of the timeout variant is measurable. -/
def TryLock (lock_name : String) (now : Int) (s : LockState) :
    BoolOrError × LockState :=
  match s lock_name with
  | some _ => (BoolOrError.ofBool false, s)
  | none =>
      (BoolOrError.ofBool true,
       fun n => if n = lock_name then some now else s n)

/-- Modelled from the spec: `FileSystem::Unlock` is pure virtual and its
concrete bodies are not under src/.  It releases a held lock, returning
`true` on success. -/
def Unlock (lock_name : String) (s : LockState) : Bool × LockState :=
  (true, fun n => if n = lock_name then none else s n)

/-- Modelled from the spec: the overridden `TryLockWithTimeout` of a
backend that implements breaking (the default body in the header merely
delegates to `TryLock`).  Per the header, a lock is stale if it was taken
or last bumped more than `timeout_millis` ms ago; a stale lock may be
broken and taken over. -/
def TryLockWithTimeout (lock_name : String) (timeout_millis : Int)
    (now : Int) (s : LockState) : BoolOrError × LockState :=
  match s lock_name with
  | none =>
      (BoolOrError.ofBool true,
       fun n => if n = lock_name then some now else s n)
  | some t0 =>
      if now - t0 > timeout_millis then
        (BoolOrError.ofBool true,
         fun n => if n = lock_name then some now else s n)
      else
        (BoolOrError.ofBool false, s)

/-- Modelled from the spec: the overridden `BumpLockTimeout` of a backend
that implements breaking.  It refreshes the last-claimed timestamp of a
held lock so that a long-running holder is not pre-empted. -/
def BumpLockTimeout (lock_name : String) (now : Int) (s : LockState) :
    Bool × LockState :=
  match s lock_name with
  | some _ => (true, fun n => if n = lock_name then some now else s n)
  | none => (true, s)

end PagespeedFS.Locks

namespace PagespeedFS

/-! ## Size-limited whole-file read -/

/-- The sentinel for the size-bounded read operations, from the header:
`static const int64 kUnlimitedSize = -1`. -/
def kUnlimitedSize : Int := -1

/-- Modelled from the spec: `InputFile::ReadFile` is pure virtual and its
concrete bodies are not under src/.  Per the header and the spec it reads
the entire content into the buffer, returning false (and delivering
nothing) if the content is larger than `max_file_size`; passing
`kUnlimitedSize` does not limit the read size.  File content is a byte
sequence; `none` models returning false with no content delivered. -/
def ReadFile (contents : List Nat) (max_file_size : Int) :
    Option (List Nat) :=
  if max_file_size ≠ kUnlimitedSize ∧
      (contents.length : Int) > max_file_size then
    none
  else
    some contents

end PagespeedFS

namespace PagespeedFS.AtomicWrite

/-! ## WriteFileAtomic: temp-write-then-rename -/

/-- The two storage locations touched by `WriteFileAtomic(F, B)`: the
target path F and the temporary path derived from F.  Contents are byte
sequences. -/
structure AtomicState where
  target : List Nat
  temp : Option (List Nat)
deriving DecidableEq, Repr

/-- Modelled from the spec: the backend rename primitive
(`RenameFileHelper` is pure virtual; its bodies are not under src/).  The
rename durably moves the temporary content onto the target in one step. -/
def RenameStep (s : AtomicState) : AtomicState :=
  match s.temp with
  | some t => { target := t, temp := none }
  | none => s

/-- Modelled from the spec: the body of `FileSystem::WriteFileAtomic` is in
the implementation file, not under src/.  Per the header comment it writes
a temp file first and then renames it to the target, so the final state
after a successful atomic write. -/
def WriteFileAtomic (old buf : List Nat) : AtomicState :=
  RenameStep { target := old, temp := some buf }

/-- Modelled from the spec: every intermediate state a concurrent reader
can observe during `WriteFileAtomic(F, B)` starting from target content
`old`.  The temporary file fills byte by byte (a non-atomic `Write` may
expose any partial temp content) and the final step is the rename. -/
def WriteFileAtomicTrace (old buf : List Nat) : List AtomicState :=
  { target := old, temp := none } ::
    ((List.range (buf.length + 1)).map
      (fun k => { target := old, temp := some (buf.take k) })) ++
    [WriteFileAtomic old buf]

/-- A reader that opens the target path observes its complete current
content. -/
def readTarget (s : AtomicState) : List Nat := s.target

end PagespeedFS.AtomicWrite

namespace PagespeedFS.OpenFunnel

/-! ## Parent-directory creation funnel for the open entry points -/

/-- A path, as its list of components. -/
abbrev Path := List String

/-- The set of directories that currently exist in the backend. -/
structure DirState where
  dirs : List Path
deriving Repr

/-- Every ancestor of a directory path, the path itself included: its
component-list truncations. -/
def ancestorsOf (d : Path) : List Path :=
  (List.range (d.length + 1)).map fun k => d.take k

/-- Modelled from the spec: `RecursivelyMakeDir` (like POSIX mkdir -p)
makes all directories up to this one recursively; its body is in the
implementation file, not under src/. -/
def RecursivelyMakeDir (directory_path : Path) (s : DirState) : DirState :=
  { dirs := ancestorsOf directory_path ++ s.dirs }

/-- Modelled from the spec: the private `SetupFileDir` runs
`RecursivelyMakeDir` on the directory needed for the filename (the path
without its final component); its body is in the implementation file, not
under src/. -/
def SetupFileDir (filename : Path) (s : DirState) : DirState :=
  RecursivelyMakeDir filename.dropLast s

/-- The backend-specific open primitives, pure virtual in the header.  A
helper may assume the directory already exists and does not create
directories itself; it yields the opened handle (its path) or none. -/
structure OpenBackend where
  OpenOutputFileHelper : Path → Bool → DirState → Option Path
  OpenTempFileHelper : Path → DirState → Option Path

/-- The inline body of `FileSystem::OpenOutputFile` from the header:
`SetupFileDir(filename)` first, then delegate to
`OpenOutputFileHelper(filename, false)`. -/
def OpenOutputFile (fs : OpenBackend) (filename : Path) (s : DirState) :
    Option Path × DirState :=
  let s2 := SetupFileDir filename s
  (fs.OpenOutputFileHelper filename false s2, s2)

/-- The inline body of `FileSystem::OpenOutputFileForAppend` from the
header: `SetupFileDir(filename)` first, then delegate to
`OpenOutputFileHelper(filename, true)`. -/
def OpenOutputFileForAppend (fs : OpenBackend) (filename : Path)
    (s : DirState) : Option Path × DirState :=
  let s2 := SetupFileDir filename s
  (fs.OpenOutputFileHelper filename true s2, s2)

/-- The inline body of `FileSystem::OpenTempFile` from the header:
`SetupFileDir(prefix_name)` first, then delegate to
`OpenTempFileHelper(prefix_name)`. -/
def OpenTempFile (fs : OpenBackend) (prefix_name : Path) (s : DirState) :
    Option Path × DirState :=
  let s2 := SetupFileDir prefix_name s
  (fs.OpenTempFileHelper prefix_name s2, s2)

end PagespeedFS.OpenFunnel

namespace PagespeedFS.DirWalk

/-! ## GetDirInfo: recursive directory aggregation -/

/-- The `FileSystem::FileInfo` record from the header: size in bytes, last
access time in seconds, full name. -/
structure FileInfo where
  size_bytes : Int
  atime_sec : Int
  name : String
deriving DecidableEq, Repr

/-- The `FileSystem::DirInfo` aggregation record from the header; its
default constructor zeroes the counters. -/
structure DirInfo where
  files : List FileInfo
  empty_dirs : List String
  size_bytes : Int
  inode_count : Int
deriving DecidableEq, Repr

/-- The zero-initialised `DirInfo()`. -/
def DirInfo.init : DirInfo :=
  { files := [], empty_dirs := [], size_bytes := 0, inode_count := 0 }

/-- A directory tree, as the list of entries of one directory: each entry
is a regular file (with size and access time) or a subdirectory with its
own entries.  A single inductive so that all recursion over it is plain
structural recursion. -/
inductive Entries where
  | nil : Entries
  | file (name : String) (size_bytes : Int) (atime_sec : Int)
      (rest : Entries) : Entries
  | dir (name : String) (contents : Entries) (rest : Entries) : Entries
deriving DecidableEq, Repr

/-- Modelled from the spec: the body of `GetDirInfoWithProgress` is in the
implementation file, not under src/.  Walk the listed entries of the
directory at `path`, threading the single mutable aggregation record: a
regular file appends its metadata (size, access time, full path) and adds
its size; every traversed entry counts toward the inode count; a
subdirectory with zero entries has its full path appended to the
empty-directory list, and otherwise is walked recursively. -/
def walkEntries (path : String) (es : Entries) (acc : DirInfo) : DirInfo :=
  match es with
  | .nil => acc
  | .file name size atime rest =>
      walkEntries path rest
        { acc with
          files := acc.files ++ [⟨size, atime, path ++ "/" ++ name⟩],
          size_bytes := acc.size_bytes + size,
          inode_count := acc.inode_count + 1 }
  | .dir name contents rest =>
      walkEntries path rest
        (match contents with
         | .nil =>
             { acc with
               empty_dirs := acc.empty_dirs ++ [path ++ "/" ++ name],
               inode_count := acc.inode_count + 1 }
         | _ =>
             walkEntries (path ++ "/" ++ name) contents
               { acc with inode_count := acc.inode_count + 1 })

/-- Modelled from the spec: `GetDirInfo(path, dirinfo)` aggregates the
subtree under the directory at `path` into a fresh zero-initialised
record; a directory found to contain zero entries has its full path
appended to the empty-directory list. -/
def GetDirInfo (path : String) (es : Entries) : DirInfo :=
  match es with
  | .nil => { DirInfo.init with empty_dirs := [path] }
  | _ => walkEntries path es DirInfo.init

/-- Direct statement, written independently of the accumulator walk, of
the file metadata records under a directory: every regular file in the
subtree with its size, access time and full path, in traversal order. -/
def filesUnder (path : String) : Entries → List FileInfo
  | .nil => []
  | .file name size atime rest =>
      ⟨size, atime, path ++ "/" ++ name⟩ :: filesUnder path rest
  | .dir name contents rest =>
      filesUnder (path ++ "/" ++ name) contents ++ filesUnder path rest

/-- Direct statement of the full paths of the empty subdirectories under a
directory, in traversal order. -/
def emptyDirsUnder (path : String) : Entries → List String
  | .nil => []
  | .file _ _ _ rest => emptyDirsUnder path rest
  | .dir name contents rest =>
      (match contents with
       | .nil => [path ++ "/" ++ name]
       | _ => emptyDirsUnder (path ++ "/" ++ name) contents) ++
        emptyDirsUnder path rest

/-- Direct count of the entries traversed under a directory: every file
and every directory in the whole subtree. -/
def entryCountUnder : Entries → Int
  | .nil => 0
  | .file _ _ _ rest => 1 + entryCountUnder rest
  | .dir _ contents rest => 1 + entryCountUnder contents + entryCountUnder rest

end PagespeedFS.DirWalk

namespace PagespeedFS

/-! ## Theorems -/

/-- C7: a default-constructed BoolOrError is in the error state; one
constructed from a boolean b, or mutated via set(b), satisfies
is_true() = b, is_false() = not b, is_error() = false; set_error() makes
is_error() true; and every BoolOrError is in exactly one of the three
states. -/
theorem boolOrError_tristate_contract :
    (BoolOrError.default.is_error = true ∧ BoolOrError.default.is_true = false ∧
      BoolOrError.default.is_false = false) ∧
    (∀ b : Bool, (BoolOrError.ofBool b).is_true = b ∧
      (BoolOrError.ofBool b).is_false = !b ∧
      (BoolOrError.ofBool b).is_error = false) ∧
    (∀ (x : BoolOrError) (b : Bool), (x.set b).is_true = b ∧
      (x.set b).is_false = !b ∧ (x.set b).is_error = false) ∧
    (∀ x : BoolOrError, x.set_error.is_error = true) ∧
    (∀ x : BoolOrError,
      (x.is_true = true ∧ x.is_false = false ∧ x.is_error = false) ∨
      (x.is_false = true ∧ x.is_true = false ∧ x.is_error = false) ∨
      (x.is_error = true ∧ x.is_true = false ∧ x.is_false = false)) := by
  refine ⟨⟨rfl, rfl, rfl⟩, ?_, ?_, fun x => rfl, ?_⟩
  · intro b; cases b <;> exact ⟨rfl, rfl, rfl⟩
  · intro x b; cases b <;> exact ⟨rfl, rfl, rfl⟩
  · rintro ⟨c⟩
    cases c
    · exact Or.inr (Or.inl ⟨rfl, rfl, rfl⟩)
    · exact Or.inl ⟨rfl, rfl, rfl⟩
    · exact Or.inr (Or.inr ⟨rfl, rfl, rfl⟩)

/-- C2: the default (non-overridden) TryLockWithTimeout returns exactly
what TryLock returns for the same lock name, for every timeout value and
every timer: both ignored entirely. -/
theorem tryLockWithTimeout_default_is_tryLock :
    ∀ (b : LockBackend) (lock_name : String) (t1 t2 : Int) (tm1 tm2 : Timer),
      TryLockWithTimeoutDefault b lock_name t1 tm1 = b.TryLock lock_name ∧
      TryLockWithTimeoutDefault b lock_name t1 tm1 =
        TryLockWithTimeoutDefault b lock_name t2 tm2 :=
  fun _ _ _ _ _ _ => ⟨rfl, rfl⟩

/-- C10: the default (non-overridden) BumpLockTimeout returns true for
every lock name and leaves the entire lock state unchanged. -/
theorem bumpLockTimeout_default_frame :
    ∀ (lock_name : String) (s : LockState),
      (BumpLockTimeoutDefault lock_name s).1 = true ∧
      (BumpLockTimeoutDefault lock_name s).2 = s ∧
      ∀ n, (BumpLockTimeoutDefault lock_name s).2 n = s n :=
  fun _ _ => ⟨rfl, rfl, fun _ => rfl⟩

/-- C9: the sentinel kUnlimitedSize equals -1 exactly, and passing it as
max_file_size places no limit on the read: the full content always comes
back. -/
theorem kUnlimitedSize_sentinel :
    kUnlimitedSize = -1 ∧
    ∀ contents : List Nat, ReadFile contents kUnlimitedSize = some contents := by
  refine ⟨rfl, fun contents => ?_⟩
  simp [ReadFile]

/-- C5: for every file content and every non-negative size limit, the
size-limited ReadFile returns none (no partial content) when the content
is larger than max_file_size, and returns the exact full content when it
is at or under max_file_size. -/
theorem readFile_size_limit (contents : List Nat) (max_file_size : Int)
    (h : 0 ≤ max_file_size) :
    ((contents.length : Int) > max_file_size →
      ReadFile contents max_file_size = none) ∧
    ((contents.length : Int) ≤ max_file_size →
      ReadFile contents max_file_size = some contents) := by
  have hne : max_file_size ≠ kUnlimitedSize := by
    simp only [kUnlimitedSize]
    omega
  constructor
  · intro hgt
    simp only [ReadFile]
    rw [if_pos ⟨hne, hgt⟩]
  · intro hle
    simp only [ReadFile]
    rw [if_neg]
    rintro ⟨-, hgt⟩
    omega

/-- Witness for C5 at content [1, 2, 3] with limits exercised around
length 3. -/
theorem readFile_size_limit_witness :
    (((([1, 2, 3] : List Nat).length : Int) > 2 →
      ReadFile [1, 2, 3] 2 = none) ∧
     ((([1, 2, 3] : List Nat).length : Int) ≤ 2 →
      ReadFile [1, 2, 3] 2 = some [1, 2, 3])) ∧
    ReadFile [1, 2, 3] 2 = none ∧ ReadFile [1, 2, 3] 3 = some [1, 2, 3] :=
  ⟨readFile_size_limit [1, 2, 3] 2 (by decide),
   (readFile_size_limit [1, 2, 3] 2 (by decide)).1 (by decide),
   (readFile_size_limit [1, 2, 3] 3 (by decide)).2 (by decide)⟩

/-- C3: for a lock name that starts un-held, a first TryLock returns true,
a second TryLock on the same name before any Unlock returns false, the
Unlock succeeds, and a TryLock after the Unlock returns true again. -/
theorem tryLock_twice_unlock_cycle (s : LockState) (lock_name : String)
    (t1 t2 t3 : Int) (h : s lock_name = none) :
    (Locks.TryLock lock_name t1 s).1.is_true = true ∧
    (Locks.TryLock lock_name t2
      (Locks.TryLock lock_name t1 s).2).1.is_false = true ∧
    (Locks.Unlock lock_name (Locks.TryLock lock_name t1 s).2).1 = true ∧
    (Locks.TryLock lock_name t3
      (Locks.Unlock lock_name
        (Locks.TryLock lock_name t1 s).2).2).1.is_true = true := by
  refine ⟨?_, ?_, rfl, ?_⟩ <;>
    simp [Locks.TryLock, Locks.Unlock, h, BoolOrError.ofBool,
      BoolOrError.is_true, BoolOrError.is_false] <;> rfl

/-- Witness for C3 on the everywhere-free lock state and the name "l". -/
theorem tryLock_twice_unlock_cycle_witness :
    (Locks.TryLock "l" 0 (fun _ => none)).1.is_true = true ∧
    (Locks.TryLock "l" 1
      (Locks.TryLock "l" 0 (fun _ => none)).2).1.is_false = true ∧
    (Locks.Unlock "l" (Locks.TryLock "l" 0 (fun _ => none)).2).1 = true ∧
    (Locks.TryLock "l" 2
      (Locks.Unlock "l"
        (Locks.TryLock "l" 0 (fun _ => none)).2).2).1.is_true = true :=
  tryLock_twice_unlock_cycle (fun _ => none) "l" 0 1 2 rfl

/-- C4: for a lock held since time t0, a second party calling
TryLockWithTimeout with timeout T strictly before T ms have elapsed gets
false and the state is untouched; calling it after more than T ms have
elapsed gets true and takes the lock over (the stored claim time becomes
the caller time); and BumpLockTimeout refreshes the stored claim time,
restarting the staleness window. -/
theorem tryLockWithTimeout_staleness (s : LockState) (lock_name : String)
    (t0 T now tb : Int) (h : s lock_name = some t0) :
    (now - t0 < T →
      (Locks.TryLockWithTimeout lock_name T now s).1.is_false = true ∧
      (Locks.TryLockWithTimeout lock_name T now s).2 = s) ∧
    (now - t0 > T →
      (Locks.TryLockWithTimeout lock_name T now s).1.is_true = true ∧
      (Locks.TryLockWithTimeout lock_name T now s).2 lock_name = some now) ∧
    (Locks.BumpLockTimeout lock_name tb s).2 lock_name = some tb := by
  refine ⟨?_, ?_, ?_⟩
  · intro hlt
    have hng : ¬ (now - t0 > T) := by omega
    simp [Locks.TryLockWithTimeout, h, hng, BoolOrError.ofBool,
      BoolOrError.is_false]
    rfl
  · intro hgt
    simp [Locks.TryLockWithTimeout, h, hgt, BoolOrError.ofBool,
      BoolOrError.is_true]
    rfl
  · simp [Locks.BumpLockTimeout, h]

/-- Witness for C4 on a state holding "l" since time 0, with timeout 10,
probed at time 20, and a bump at time 7. -/
theorem tryLockWithTimeout_staleness_witness :
    ((20 : Int) - 0 < 10 →
      (Locks.TryLockWithTimeout "l" 10 20
        (fun n => if n = "l" then some 0 else none)).1.is_false = true ∧
      (Locks.TryLockWithTimeout "l" 10 20
        (fun n => if n = "l" then some 0 else none)).2 =
        (fun n => if n = "l" then some 0 else none)) ∧
    ((20 : Int) - 0 > 10 →
      (Locks.TryLockWithTimeout "l" 10 20
        (fun n => if n = "l" then some 0 else none)).1.is_true = true ∧
      (Locks.TryLockWithTimeout "l" 10 20
        (fun n => if n = "l" then some 0 else none)).2 "l" = some 20) ∧
    (Locks.BumpLockTimeout "l" 7
      (fun n => if n = "l" then some 0 else none)).2 "l" = some 7 :=
  tryLockWithTimeout_staleness (fun n => if n = "l" then some 0 else none)
    "l" 0 10 20 7 (by decide)

end PagespeedFS

namespace PagespeedFS.AtomicWrite

/-- C1: WriteFileAtomic(F, B) followed by a read of F yields exactly B,
and a reader at any point of the temp-write-then-rename protocol observes
either the complete previous content of F or the complete new content B,
never a partial mixture. -/
theorem writeFileAtomic_atomicity (old buf : List Nat) :
    readTarget (WriteFileAtomic old buf) = buf ∧
    ∀ s, s ∈ WriteFileAtomicTrace old buf →
      readTarget s = old ∨ readTarget s = buf := by
  refine ⟨rfl, ?_⟩
  intro s hs
  rcases List.mem_cons.1 hs with h | h
  · rw [h]
    exact Or.inl rfl
  · rcases List.mem_append.1 h with h2 | h2
    · rcases List.mem_map.1 h2 with ⟨k, -, hk⟩
      rw [← hk]
      exact Or.inl rfl
    · rw [List.mem_singleton.1 h2]
      exact Or.inr rfl

/-- Witness for C1: previous content [1, 2], new content [3, 4, 5], and
the trace state in which the temp file holds only the first new byte. -/
theorem writeFileAtomic_atomicity_witness :
    readTarget (WriteFileAtomic [1, 2] [3, 4, 5]) = [3, 4, 5] ∧
    (readTarget { target := [1, 2], temp := some [3] } = [1, 2] ∨
     readTarget { target := [1, 2], temp := some [3] } = [3, 4, 5]) :=
  ⟨(writeFileAtomic_atomicity [1, 2] [3, 4, 5]).1,
   (writeFileAtomic_atomicity [1, 2] [3, 4, 5]).2
     { target := [1, 2], temp := some [3] } (by decide)⟩

end PagespeedFS.AtomicWrite

namespace PagespeedFS.OpenFunnel

/-- Every truncation of a directory path is among its ancestors. -/
theorem take_mem_ancestorsOf (d : Path) (k : Nat) :
    d.take k ∈ ancestorsOf d := by
  rcases le_or_lt k d.length with h | h
  · exact List.mem_map.2 ⟨k, List.mem_range.2 (by omega), rfl⟩
  · have h2 : d.take k = d.take d.length := by
      rw [List.take_length, List.take_of_length_le (by omega)]
    rw [h2]
    exact List.mem_map.2 ⟨d.length, List.mem_range.2 (by omega), rfl⟩

/-- C8: each of OpenOutputFile, OpenOutputFileForAppend and OpenTempFile
first runs SetupFileDir (which recursively makes the destination parent
directories) and only then delegates to the backend-specific open helper
on the resulting state, so every ancestor directory of the destination
path exists after the open. -/
theorem open_entry_points_funnel :
    ∀ (fs : OpenBackend) (filename prefix_name : Path) (s : DirState),
      OpenOutputFile fs filename s =
        (fs.OpenOutputFileHelper filename false (SetupFileDir filename s),
         SetupFileDir filename s) ∧
      OpenOutputFileForAppend fs filename s =
        (fs.OpenOutputFileHelper filename true (SetupFileDir filename s),
         SetupFileDir filename s) ∧
      OpenTempFile fs prefix_name s =
        (fs.OpenTempFileHelper prefix_name (SetupFileDir prefix_name s),
         SetupFileDir prefix_name s) ∧
      (∀ k : Nat,
        filename.dropLast.take k ∈ (OpenOutputFile fs filename s).2.dirs) ∧
      (∀ k : Nat,
        filename.dropLast.take k ∈
          (OpenOutputFileForAppend fs filename s).2.dirs) ∧
      (∀ k : Nat,
        prefix_name.dropLast.take k ∈ (OpenTempFile fs prefix_name s).2.dirs) := by
  intro fs filename prefix_name s
  refine ⟨rfl, rfl, rfl, ?_, ?_, ?_⟩ <;>
    exact fun k => List.mem_append_left _ (take_mem_ancestorsOf _ k)

end PagespeedFS.OpenFunnel

namespace PagespeedFS.DirWalk

/-- The accumulator walk over the entries of a directory appends exactly
the directly-specified file records and empty-subdirectory paths, adds the
sum of the appended file sizes, and adds the count of traversed
entries. -/
theorem walkEntries_spec (es : Entries) :
    ∀ (path : String) (acc : DirInfo),
      walkEntries path es acc =
        { files := acc.files ++ filesUnder path es,
          empty_dirs := acc.empty_dirs ++ emptyDirsUnder path es,
          size_bytes :=
            acc.size_bytes + ((filesUnder path es).map FileInfo.size_bytes).sum,
          inode_count := acc.inode_count + entryCountUnder es } := by
  induction es with
  | nil =>
      intro path acc
      simp [walkEntries, filesUnder, emptyDirsUnder, entryCountUnder]
  | file name size atime rest ih =>
      intro path acc
      rw [walkEntries, ih]
      simp [filesUnder, emptyDirsUnder, entryCountUnder, add_assoc]
  | dir name contents rest ih_contents ih_rest =>
      intro path acc
      cases contents with
      | nil =>
          rw [walkEntries, ih_rest]
          simp [filesUnder, emptyDirsUnder, entryCountUnder, add_assoc]
      | file n2 s2 a2 r2 =>
          rw [walkEntries, ih_rest, ih_contents]
          simp [filesUnder, emptyDirsUnder, entryCountUnder, add_assoc,
            List.append_assoc, List.map_append, List.sum_append]
          exact fun h => nomatch h
      | dir n2 c2 r2 =>
          rw [walkEntries, ih_rest, ih_contents]
          simp [filesUnder, emptyDirsUnder, entryCountUnder, add_assoc,
            List.append_assoc, List.map_append, List.sum_append]
          exact fun h => nomatch h

/-- A directory with files of sizes 10, 20 and 30 bytes and one empty
subdirectory, the concrete tree the spec uses. -/
def exampleEntries : Entries :=
  Entries.file "a" 10 100
    (Entries.file "b" 20 200
      (Entries.file "c" 30 300
        (Entries.dir "empty" Entries.nil Entries.nil)))

/-- C6: for every non-empty directory tree, GetDirInfo yields exactly the
metadata of every regular file under the root, a size_bytes equal to the
sum of those file sizes, an inode_count equal to the number of entries
traversed, and each empty subdirectory full path; in particular, a
directory containing files of sizes 10, 20 and 30 and one empty
subdirectory yields cumulative size 60, inode count 4, and that
subdirectory appearing exactly once in empty_dirs. -/
theorem getDirInfo_aggregation :
    (∀ (path : String) (es : Entries), es ≠ Entries.nil →
      GetDirInfo path es =
        { files := filesUnder path es,
          empty_dirs := emptyDirsUnder path es,
          size_bytes := ((filesUnder path es).map FileInfo.size_bytes).sum,
          inode_count := entryCountUnder es }) ∧
    GetDirInfo "root" exampleEntries =
      { files := [⟨10, 100, "root/a"⟩, ⟨20, 200, "root/b"⟩,
                  ⟨30, 300, "root/c"⟩],
        empty_dirs := ["root/empty"],
        size_bytes := 60,
        inode_count := 4 } ∧
    (GetDirInfo "root" exampleEntries).empty_dirs.count "root/empty" = 1 := by
  refine ⟨?_, by decide, by decide⟩
  intro path es hne
  cases es with
  | nil => exact absurd rfl hne
  | file name size atime rest =>
      show walkEntries path (Entries.file name size atime rest) DirInfo.init = _
      rw [walkEntries_spec]
      simp [DirInfo.init]
  | dir name contents rest =>
      show walkEntries path (Entries.dir name contents rest) DirInfo.init = _
      rw [walkEntries_spec]
      simp [DirInfo.init]

/-- Witness for C6, instantiating the universal aggregation statement at
the concrete example tree. -/
theorem getDirInfo_aggregation_witness :
    GetDirInfo "root" exampleEntries =
      { files := filesUnder "root" exampleEntries,
        empty_dirs := emptyDirsUnder "root" exampleEntries,
        size_bytes :=
          ((filesUnder "root" exampleEntries).map FileInfo.size_bytes).sum,
        inode_count := entryCountUnder exampleEntries } :=
  getDirInfo_aggregation.1 "root" exampleEntries (fun h => nomatch h)

end PagespeedFS.DirWalk
